import Mathlib

/-!
Verification of hal-interfaces: GPIO pin masking and RTC calendar validation.

A shallow embedding of

* `lib/include/hal/gpio/types.hpp` (`Pin`, `toInt`, `cIsValidWidthType`, `maxPin`),
* `lib/include/hal/gpio/PinOutput.hpp` (`PinOutput`),
* `lib/IRtc.cpp` (`isValidTime`, `IRtc::getTime`, `IRtc::setTime`),

followed by the theorems proved about them.

Conventions of the embedding:

* a C++ unsigned integer of `n` bits is a `Nat` reduced modulo `2 ^ n`, a C `int`
  and a `std::time_t` are an `Int`;
* a virtual call into a board driver is a call of a field of a driver record, which
  threads the driver's own state `σ` explicitly;
* a failing `assert` and an operation without defined behaviour end the run with an
  `Abort`, so every function that can reach one returns `Except Abort _`.
-/

namespace hal

/-! ## Error codes -/

/-- Modelled from the spec: the enumeration `hal::Error` of `hal/Error.hpp`, which is
not among the sources. Its enumerators are the success value and the error taxonomy
listed in section 6 of the specification. -/
inductive Error where
  | eOk
  | eInvalidArgument
  | eHardwareError
  | eTimeout
  | eNotOpened
  | eAlreadyOpen
  | eNotFound
  | eDuplicate
  deriving DecidableEq, Repr

/-- The type `std::error_code`: a code of the `hal` category, or a numeric code of some
other category (identified by a number). -/
inductive error_code where
  | hal (e : Error)
  | foreign (category : Nat) (value : Int)
  deriving DecidableEq, Repr

/-- The conversion `explicit operator bool` of `std::error_code`: true on an error. -/
def error_code.toBool : error_code → Bool
  | .hal .eOk => false
  | .hal _ => true
  | .foreign _ v => v != 0

/-- The value-initialised `std::error_code`, which reports success. -/
def error_code.ok : error_code := .hal .eOk

/-- The ways a run can end without returning. -/
inductive Abort where
  /-- An `assert` whose condition is false. -/
  | assertFailed
  /-- An operation the language leaves undefined (oversized shift, empty optional). -/
  | undefinedBehaviour
  deriving DecidableEq, Repr

deriving instance DecidableEq for Except

/-- The type `Result<T>` of the utilities library, as `IRtc::getTime` reads it through
its structured binding: an optional value together with an error code. -/
structure Result (α : Type) where
  value : Option α
  error : error_code
  deriving DecidableEq, Repr

namespace gpio

/-! ## `types.hpp` -/

/-- The enumeration `Pin`, `eBit0` to `eBit63`, represented by the enumerator's value. -/
abbrev Pin := Fin 64

/-- The function `toInt`: the numeric value of a pin id. -/
def toInt (pin : Pin) : Int := (pin.val : Int)

/-- What the templates read off a `WidthType`: whether it is an unsigned type, whether
it is `bool`, and its `sizeof` in bytes. -/
structure WidthType where
  isUnsigned : Bool
  isBool : Bool
  sizeOf : Nat
  deriving DecidableEq, Repr

/-- The number of value bits of a width type. -/
def WidthType.bits (w : WidthType) : Nat := 8 * w.sizeOf

/-- The types `std::uint8_t`, `std::uint16_t`, `std::uint32_t` and `std::uint64_t`. -/
def uint8_t : WidthType := ⟨true, false, 1⟩
def uint16_t : WidthType := ⟨true, false, 2⟩
def uint32_t : WidthType := ⟨true, false, 4⟩
def uint64_t : WidthType := ⟨true, false, 8⟩

/-- The variable template `cIsValidWidthType`. -/
def cIsValidWidthType (w : WidthType) : Bool :=
  w.isUnsigned && !w.isBool && decide (w.sizeOf ≤ 8)

/-- The function template `maxPin`: a `switch` over `sizeof(WidthType)` whose default
branch is `assert(false)`. -/
def maxPin (w : WidthType) : Except Abort Pin :=
  match w.sizeOf with
  | 1 => .ok 7
  | 2 => .ok 15
  | 4 => .ok 31
  | 8 => .ok 63
  | _ => .error .assertFailed

/-- The four sizes `maxPin` has a case for. -/
def WidthType.supported (w : WidthType) : Prop :=
  w.sizeOf = 1 ∨ w.sizeOf = 2 ∨ w.sizeOf = 4 ∨ w.sizeOf = 8

/-! ## `PinOutput.hpp` -/

/-- The size of `int` in bytes on the platforms the library targets. -/
def sizeofInt : Nat := 4

/-- Conversion of an integer to the unsigned type `w`: reduction modulo `2 ^ bits`. -/
def WidthType.convert (w : WidthType) (x : Int) : Nat := (x % (2 : Int) ^ w.bits).toNat

/-- The expression `WidthType{1} << static_cast<WidthType>(pin)` converted back to
`WidthType`. A type narrower than `int` is promoted, so the shift is an `int` shift; a
shift count not below the width of the (promoted) left operand is undefined. -/
def shiftOne (w : WidthType) (pin : Pin) : Except Abort Nat :=
  let count : Nat := w.convert (toInt pin)
  let opBits : Nat := if w.sizeOf < sizeofInt then 8 * sizeofInt else w.bits
  if count < opBits then .ok (w.convert ((1 : Int) * 2 ^ count)) else .error .undefinedBehaviour

/-- The expression `~WidthType{}` before it is converted to the parameter type: `-1` of
type `int` for a promoted type, all ones of the type itself otherwise. -/
def complZero (w : WidthType) : Int :=
  if w.sizeOf < sizeofInt then -1 else (2 : Int) ^ w.bits - 1

/-- The interface `IGpioPort<WidthType>`, as far as `PinOutput` uses it: the driver's
`set(value, mask)` on a driver state `σ`. -/
structure IGpioPort (σ : Type) where
  set : σ → Nat → Nat → error_code × σ

/-- The data members of `PinOutput<WidthType>` other than the port pointer (the port and
its state are passed to `set` explicitly). -/
structure PinOutput where
  width : WidthType
  m_mask : Nat
  m_negated : Bool
  deriving DecidableEq, Repr

/-- The constructor of `PinOutput`: the member initialisers, then
`assert(pin <= maxPin<WidthType>())`. -/
def PinOutput.new (w : WidthType) (pin : Pin) (negated : Bool) : Except Abort PinOutput :=
  match shiftOne w pin with
  | .error a => .error a
  | .ok mask =>
    match maxPin w with
    | .error a => .error a
    | .ok top => if pin ≤ top then .ok ⟨w, mask, negated⟩ else .error .assertFailed

/-- The member function `PinOutput::set`. -/
def PinOutput.set {σ : Type} (self : PinOutput) (port : IGpioPort σ) (s : σ) (value : Bool) :
    error_code × σ :=
  if value then
    port.set s (self.width.convert (if self.m_negated then 0 else complZero self.width))
      self.m_mask
  else
    port.set s (self.width.convert (if self.m_negated then complZero self.width else 0))
      self.m_mask

/-- A port driver that only records the `(value, mask)` pairs it is called with. -/
def recordingPort : IGpioPort (List (Nat × Nat)) where
  set := fun log value mask => (error_code.ok, log ++ [(value, mask)])

/-- Modelled from the C++ language: the arithmetic types a width type can be chosen
from. A template argument of `cIsValidWidthType` that passes `std::is_unsigned_v` is one
of these (the trait is false for every other type), `unsigned __int128` being the
extension type of GCC and Clang. -/
inductive ArithmeticType where
  | bool
  | char
  | signedChar
  | unsignedChar
  | char8_t
  | char16_t
  | char32_t
  | wchar_t
  | short
  | unsignedShort
  | int
  | unsignedInt
  | long
  | unsignedLong
  | longLong
  | unsignedLongLong
  | int128
  | unsignedInt128
  | float
  | double
  | longDouble
  deriving DecidableEq, Repr

/-- What the usual data models (ILP32, LLP64, LP64) leave to the target: whether `char`
and `wchar_t` are unsigned, whether `long` has 8 bytes rather than 4, and whether
`wchar_t` has 4 bytes rather than 2. In all of them `short` has 2 bytes, `int` has 4 and
`long long` has 8. -/
structure Target where
  charIsUnsigned : Bool
  wcharIsUnsigned : Bool
  longIs64 : Bool
  wcharIs32 : Bool
  deriving DecidableEq, Repr

/-- The traits `cIsValidWidthType` and `maxPin` read off an arithmetic type on a target:
`std::is_unsigned_v`, `std::is_same_v<T, bool>` and `sizeof`. -/
def ArithmeticType.traits (t : Target) : ArithmeticType → WidthType
  | .bool => ⟨true, true, 1⟩
  | .char => ⟨t.charIsUnsigned, false, 1⟩
  | .signedChar => ⟨false, false, 1⟩
  | .unsignedChar => ⟨true, false, 1⟩
  | .char8_t => ⟨true, false, 1⟩
  | .char16_t => ⟨true, false, 2⟩
  | .char32_t => ⟨true, false, 4⟩
  | .wchar_t => ⟨t.wcharIsUnsigned, false, if t.wcharIs32 then 4 else 2⟩
  | .short => ⟨false, false, 2⟩
  | .unsignedShort => ⟨true, false, 2⟩
  | .int => ⟨false, false, sizeofInt⟩
  | .unsignedInt => ⟨true, false, sizeofInt⟩
  | .long => ⟨false, false, if t.longIs64 then 8 else 4⟩
  | .unsignedLong => ⟨true, false, if t.longIs64 then 8 else 4⟩
  | .longLong => ⟨false, false, 8⟩
  | .unsignedLongLong => ⟨true, false, 8⟩
  | .int128 => ⟨false, false, 16⟩
  | .unsignedInt128 => ⟨true, false, 16⟩
  | .float => ⟨false, false, 4⟩
  | .double => ⟨false, false, 8⟩
  | .longDouble => ⟨false, false, 16⟩

/-- The number of bits of the alias template `PinMask<WidthType>`, which is
`std::bitset<toInt(maxPin<WidthType>())>`: the size of a `std::bitset<N>` is `N`, and its
valid positions are `0, ..., N - 1`. -/
def PinMaskBits (w : WidthType) : Except Abort Nat :=
  match maxPin w with
  | .error a => .error a
  | .ok top => .ok (toInt top).toNat

/-- Modelled from the spec: a port backend that implements `set(value, mask)` as
`new = (old AND NOT mask) OR (value AND mask)` on a port value of the width `w`, and
always succeeds. `NOT mask` is taken within the width: all ones of the width, exclusive-or
`mask`. The driver state is the port value. -/
def maskedWritePort (w : WidthType) : IGpioPort Nat where
  set := fun old value mask =>
    (error_code.ok, (old &&& ((2 ^ w.bits - 1) ^^^ mask)) ||| (value &&& mask))

end gpio

namespace time

/-! ## `IRtc.cpp` -/

/-- The structure `std::tm`. -/
structure Tm where
  tm_sec : Int
  tm_min : Int
  tm_hour : Int
  tm_mday : Int
  tm_mon : Int
  tm_year : Int
  tm_wday : Int
  tm_yday : Int
  tm_isdst : Int
  deriving DecidableEq, Repr

/-- The two functions of the C library `isValidTime` calls. `mktime` gives the
`std::time_t` it returns, `(time_t)(-1)` being its error value; `gmtime_r` gives the
`std::tm` it fills, or `none` when it returns a null pointer. -/
structure Platform where
  mktime : Tm → Int
  gmtime_r : Int → Option Tm

/-- The lambda `isSame` of `isValidTime`. -/
def isSame (a b : Tm) : Bool :=
  let sameHour := (a.tm_hour == b.tm_hour) && (a.tm_min == b.tm_min) && (a.tm_sec == b.tm_sec)
  let sameDay := (a.tm_mday == b.tm_mday) && (a.tm_mon == b.tm_mon) && (a.tm_year == b.tm_year)
  let sameCalendar :=
    (a.tm_wday == b.tm_wday) && (a.tm_yday == b.tm_yday) && (a.tm_isdst == b.tm_isdst)
  sameHour && sameDay && sameCalendar

/-- The function `isValidTime`. It takes its argument by reference and may modify it, so
the model returns the flag together with the argument's final value. The logger call is
left out. -/
def isValidTime (P : Platform) (tm : Tm) : Except Abort (Bool × Tm) :=
  let toConvert := tm
  let time := P.mktime toConvert
  if time = -1 then
    .ok (false, tm)
  else
    match P.gmtime_r time with
    | none => .error .assertFailed
    | some converted =>
      let tm1 : Tm :=
        { tm with tm_wday := converted.tm_wday,
                  tm_yday := converted.tm_yday,
                  tm_isdst := converted.tm_isdst }
      .ok (isSame tm1 converted, tm1)

/-- The pure virtual functions `drvGetTime` and `drvSetTime` of `IRtc`, on a driver
state `σ`. -/
structure IRtcDriver (σ : Type) where
  drvGetTime : σ → Result Tm × σ
  drvSetTime : σ → Tm → error_code × σ

/-- The state of an `IRtc` object: its member `m_initialized` and the state of the
driver behind its virtual functions. -/
structure IRtc (σ : Type) where
  m_initialized : Bool
  drv : σ
  deriving DecidableEq, Repr

/-- The member function `IRtc::getTime`. -/
def IRtc.getTime {σ : Type} (P : Platform) (D : IRtcDriver σ) (self : IRtc σ) :
    Except Abort (Result Tm × IRtc σ) :=
  let r := D.drvGetTime self.drv
  let self1 : IRtc σ := { self with drv := r.2 }
  let tm := r.1.value
  let error := r.1.error
  if error.toBool then
    .ok (⟨none, error⟩, self1)
  else
    match tm with
    | none => .error .undefinedBehaviour
    | some t =>
      match isValidTime P t with
      | .error a => .error a
      | .ok (false, _) => .ok (⟨none, .hal .eHardwareError⟩, self1)
      | .ok (true, t1) => .ok (⟨some t1, error_code.ok⟩, self1)

/-- The member function `IRtc::setTime`. The logger calls are left out. -/
def IRtc.setTime {σ : Type} (P : Platform) (D : IRtcDriver σ) (self : IRtc σ) (tm : Tm) :
    Except Abort (error_code × IRtc σ) :=
  let toSet := tm
  match isValidTime P toSet with
  | .error a => .error a
  | .ok (false, _) => .ok (.hal .eInvalidArgument, self)
  | .ok (true, toSet1) =>
    let r := D.drvSetTime self.drv toSet1
    let error := r.1
    .ok (error, { m_initialized := !error.toBool, drv := r.2 })

/-- A driver that records the calendar times `drvSetTime` is called with and answers
each call with `answer`; its `drvGetTime` returns `reading`. -/
def recordingDriver (reading : Result Tm) (answer : Tm → error_code) :
    IRtcDriver (List Tm) where
  drvGetTime := fun log => (reading, log)
  drvSetTime := fun log tm => (answer tm, log ++ [tm])

/-! ## The C library under the UTC time zone

`std::mktime` and `gmtime_r` belong to the platform, not to the repository. The model
below is the one the GNU C library gives when the local time zone is UTC without
daylight saving, `int` has 32 bits and `std::time_t` has 64 bits: `mktime` accepts fields
outside their ranges and carries them over arithmetically, answers a positive `tm_isdst`
with a time-point one hour earlier, and fails when the result cannot be represented. -/

/-- The Gregorian leap-year rule. -/
def isLeapYear (y : Int) : Prop := y % 4 = 0 ∧ (y % 100 ≠ 0 ∨ y % 400 = 0)

instance : DecidablePred isLeapYear := fun y => by unfold isLeapYear; infer_instance

/-- The number of days of month `mon` (0 = January) of year `y`. -/
def daysInMonth (y mon : Int) : Int :=
  if mon = 1 then (if isLeapYear y then 29 else 28)
  else if mon = 3 ∨ mon = 5 ∨ mon = 8 ∨ mon = 10 then 30
  else 31

/-- Modelled from the spec: the property "the six primary fields denote a real Gregorian
date and time of day", stated as the explicit validity rule of the specification's design
notes (days-per-month table with the leap-year rule, and the ranges of month, hour,
minute and second). The fields are those of `std::tm`: `tm_mon` counts from 0 and
`tm_year` from 1900. -/
def isRealDateTime (tm : Tm) : Prop :=
  (0 ≤ tm.tm_mon ∧ tm.tm_mon ≤ 11) ∧
  (1 ≤ tm.tm_mday ∧ tm.tm_mday ≤ daysInMonth (tm.tm_year + 1900) tm.tm_mon) ∧
  (0 ≤ tm.tm_hour ∧ tm.tm_hour ≤ 23) ∧
  (0 ≤ tm.tm_min ∧ tm.tm_min ≤ 59) ∧
  (0 ≤ tm.tm_sec ∧ tm.tm_sec ≤ 59)

instance : DecidablePred isRealDateTime := fun tm => by unfold isRealDateTime; infer_instance

/-- The limits of `int` and of `std::time_t`. -/
def INT_MIN : Int := -2147483648
def INT_MAX : Int := 2147483647
def TIME_MIN : Int := -9223372036854775808
def TIME_MAX : Int := 9223372036854775807

/-- The number of days of the months before month `mon` (0 = January) in a common
year. -/
def daysBeforeMonth (mon : Int) : Int :=
  if mon = 0 then 0 else if mon = 1 then 31 else if mon = 2 then 59
  else if mon = 3 then 90 else if mon = 4 then 120 else if mon = 5 then 151
  else if mon = 6 then 181 else if mon = 7 then 212 else if mon = 8 then 243
  else if mon = 9 then 273 else if mon = 10 then 304 else 334

/-- The number of leap years among the years `1, ..., y - 1`. -/
def leapsBefore (y : Int) : Int := (y - 1) / 4 - (y - 1) / 100 + (y - 1) / 400

/-- The number of days from 1 January 1970 to 1 January of year `y`. -/
def daysBeforeYear (y : Int) : Int := 365 * (y - 1970) + (leapsBefore y - leapsBefore 1970)

/-- The seconds since the epoch a broken-down UTC time stands for, with fields outside
their ranges carried over: months into years, and days, hours, minutes and seconds
linearly. -/
def tmToSecs (tm : Tm) : Int :=
  let year := tm.tm_year + 1900 + tm.tm_mon / 12
  let mon := tm.tm_mon % 12
  let days := daysBeforeYear year + daysBeforeMonth mon
    + (if isLeapYear year ∧ 2 ≤ mon then 1 else 0) + (tm.tm_mday - 1)
  86400 * days + 3600 * tm.tm_hour + 60 * tm.tm_min + tm.tm_sec

/-- The broken-down UTC time of `t` seconds since the epoch. Days are counted from
1 March of year 0 and divided successively into cycles of 400 years, of 100 years and of
4 years and into years, so that the leap day is the last day of its year. -/
def secsToTm (t : Int) : Tm :=
  let rem := t % 86400
  let days := t / 86400 + 719468
  let era := days / 146097
  let eraday := days % 146097
  let c := min (eraday / 36524) 3
  let r1 := eraday - 36524 * c
  let q := min (r1 / 1461) 24
  let r2 := r1 - 1461 * q
  let k := min (r2 / 365) 3
  let yearday := r2 - 365 * k
  let erayear := 100 * c + 4 * q + k
  let mp := (5 * yearday + 2) / 153
  let day := yearday - (153 * mp + 2) / 5 + 1
  let month := if mp < 10 then mp + 2 else mp - 10
  let year := erayear + 400 * era + (if month ≤ 1 then 1 else 0)
  { tm_sec := rem % 60
    tm_min := rem % 3600 / 60
    tm_hour := rem / 3600
    tm_mday := day
    tm_mon := month
    tm_year := year - 1900
    tm_wday := (days + 3) % 7
    tm_yday := if 306 ≤ yearday then yearday - 306
               else yearday + 59 + (if isLeapYear year then 1 else 0)
    tm_isdst := 0 }

/-- The function `gmtime_r`: it fails when the year does not fit `tm_year`. -/
def gmtimeUTC (t : Int) : Option Tm :=
  let r := secsToTm t
  if INT_MIN ≤ r.tm_year ∧ r.tm_year ≤ INT_MAX then some r else none

/-- The time-point `std::mktime` computes under UTC, before it checks that the result
can be represented. The six primary fields are carried over as in `tmToSecs`, and
`tm_isdst` is read: a positive value asks for daylight-saving time, which UTC does not
have, and is answered by assuming a daylight-saving offset of one hour, so the time-point
is an hour earlier; zero (no daylight saving) and a negative value (not known) leave it
as it is. The fields `tm_wday` and `tm_yday` are not read. -/
def mktimeSecs (tm : Tm) : Int :=
  tmToSecs tm - (if 0 < tm.tm_isdst then 3600 else 0)

/-- The function `std::mktime` under UTC: it fails, returning `-1`, when the time does
not fit `std::time_t` or the normalised calendar time does not fit `std::tm`. -/
def mktimeUTC (tm : Tm) : Int :=
  let t := mktimeSecs tm
  if TIME_MIN ≤ t ∧ t ≤ TIME_MAX ∧ (gmtimeUTC t).isSome then t else -1

/-- The C library under UTC. -/
def utcPlatform : Platform where
  mktime := mktimeUTC
  gmtime_r := gmtimeUTC

/-- The calendar time `year-month-day hour:minute:second` as a `std::tm` whose derived
fields are `wday`, `yday` and `isdst`. -/
def mkTm (year month day hour minute second : Int) (wday yday isdst : Int) : Tm :=
  { tm_sec := second, tm_min := minute, tm_hour := hour, tm_mday := day,
    tm_mon := month - 1, tm_year := year - 1900,
    tm_wday := wday, tm_yday := yday, tm_isdst := isdst }

/-- The calendar time `tm` after the three assignments of `isValidTime` that copy the
derived fields of `converted` into it. -/
def withDerivedOf (tm converted : Tm) : Tm :=
  { tm with tm_wday := converted.tm_wday,
            tm_yday := converted.tm_yday,
            tm_isdst := converted.tm_isdst }

/-- Two calendar times agree on their six primary fields. -/
def samePrimary (a b : Tm) : Prop :=
  a.tm_sec = b.tm_sec ∧ a.tm_min = b.tm_min ∧ a.tm_hour = b.tm_hour ∧
  a.tm_mday = b.tm_mday ∧ a.tm_mon = b.tm_mon ∧ a.tm_year = b.tm_year

instance (a b : Tm) : Decidable (samePrimary a b) := by unfold samePrimary; infer_instance

/-- A driver answer that does not depend on the calendar time it is given. -/
def answerAlways (e : error_code) : Tm → error_code := fun _ => e

end time

end hal

/-! ## Theorems -/

namespace hal

namespace gpio

theorem convert_of_lt (w : WidthType) (x : Nat) (h : x < 2 ^ w.bits) :
    w.convert (x : Int) = x := by
  unfold WidthType.convert
  have h2 : ((x : Int)) % (2 : Int) ^ w.bits = x := by
    apply Int.emod_eq_of_lt (Int.ofNat_nonneg x)
    exact_mod_cast h
  rw [h2]; simp

theorem convert_allOnes (w : WidthType) : w.convert (complZero w) = 2 ^ w.bits - 1 := by
  have hle : 1 ≤ 2 ^ w.bits := Nat.one_le_two_pow
  obtain ⟨N, hN⟩ : ∃ N : Nat, 2 ^ w.bits = N := ⟨_, rfl⟩
  have hNi : (2 : Int) ^ w.bits = (N : Int) := by rw [← hN]; push_cast; rfl
  rw [hN] at hle
  have key : ((N : Int) - 1) % (N : Int) = (N : Int) - 1 :=
    Int.emod_eq_of_lt (by omega) (by omega)
  have neg : (-1 : Int) % (N : Int) = (N : Int) - 1 := by
    rw [← Int.add_emod_self, show (-1 : Int) + N = N - 1 by ring, key]
  unfold complZero WidthType.convert
  rw [hNi, hN]
  split
  · rw [neg]; omega
  · rw [key]; omega

theorem convert_zero (w : WidthType) : w.convert 0 = 0 := by
  simp [WidthType.convert]

theorem supported_bits {w : WidthType} (hw : w.supported) {pin top : Pin}
    (htop : maxPin w = .ok top) (hp : pin ≤ top) :
    pin.val < w.bits ∧ pin.val < (if w.sizeOf < sizeofInt then 8 * sizeofInt else w.bits) := by
  obtain ⟨u, b, sz⟩ := w
  have hp2 : pin.val ≤ top.val := hp
  simp only [WidthType.supported] at hw
  rcases hw with h | h | h | h <;> subst h <;>
    simp [maxPin] at htop <;> subst htop <;>
    simp [WidthType.bits, sizeofInt] <;> simp at hp2 <;> omega

theorem shiftOne_eq {w : WidthType} (hw : w.supported) {pin top : Pin}
    (htop : maxPin w = .ok top) (hp : pin ≤ top) : shiftOne w pin = .ok (2 ^ pin.val) := by
  obtain ⟨h1, h2⟩ := supported_bits hw htop hp
  have hlt : pin.val < 2 ^ w.bits := lt_trans h1 (Nat.lt_two_pow _)
  have hpow : 2 ^ pin.val < 2 ^ w.bits := Nat.pow_lt_pow_right (by decide) h1
  have hc : w.convert (toInt pin) = pin.val := convert_of_lt w pin.val hlt
  have hm : w.convert ((1 : Int) * 2 ^ pin.val) = 2 ^ pin.val := by
    have := convert_of_lt w (2 ^ pin.val) hpow
    simpa using this
  simp only [shiftOne, hc, h2, if_true, hm]

theorem new_eq {w : WidthType} (hw : w.supported) {pin top : Pin}
    (htop : maxPin w = .ok top) (hp : pin ≤ top) (negated : Bool) :
    PinOutput.new w pin negated = .ok ⟨w, 2 ^ pin.val, negated⟩ := by
  simp only [PinOutput.new, shiftOne_eq hw htop hp, htop, hp, if_true]

theorem set_eq (self : PinOutput) {σ : Type} (port : IGpioPort σ) (s : σ) (value : Bool) :
    self.set port s value
      = port.set s (if value != self.m_negated then 2 ^ self.width.bits - 1 else 0)
          self.m_mask := by
  cases value <;> cases hn : self.m_negated <;>
    simp [PinOutput.set, hn, convert_allOnes, convert_zero]

/-- C1: for a supported width `w`, a pin not above `maxPin w` and any `negated` flag, the
constructor yields an object whose `set v` is exactly one call of the port's
`set(value, mask)`: for every port driver and driver state the outcome of `set v` is the
outcome of that single call, and a driver that records its calls has recorded exactly
that one pair. The mask is the single-bit mask `2 ^ pin`; the value is all ones of the
width (`2 ^ bits - 1`) for `v = true, negated = false`, zero for
`v = false, negated = false`, and the two are swapped when `negated = true`. -/
theorem PinOutput_set_calls_port (w : WidthType) (hw : w.supported) (pin top : Pin)
    (htop : maxPin w = .ok top) (hp : pin ≤ top) (negated v : Bool) :
    ∃ po, PinOutput.new w pin negated = .ok po ∧
      (∀ (σ : Type) (port : IGpioPort σ) (s : σ),
        po.set port s v
          = port.set s (if v != negated then 2 ^ w.bits - 1 else 0) (2 ^ pin.val)) ∧
      (po.set recordingPort [] v).2
        = [(if v != negated then 2 ^ w.bits - 1 else 0, 2 ^ pin.val)] := by
  refine ⟨_, new_eq hw htop hp negated, ?_, ?_⟩
  · intro σ port s
    rw [set_eq]
  · rw [set_eq]
    simp [recordingPort]

theorem PinOutput_set_calls_port_witness :
    ∃ po, PinOutput.new uint16_t 9 true = .ok po ∧
      (∀ (σ : Type) (port : IGpioPort σ) (s : σ),
        po.set port s false
          = port.set s (if false != true then 2 ^ uint16_t.bits - 1 else 0)
              (2 ^ (9 : Pin).val)) ∧
      (po.set recordingPort [] false).2
        = [(if false != true then 2 ^ uint16_t.bits - 1 else 0, 2 ^ (9 : Pin).val)] :=
  PinOutput_set_calls_port uint16_t (Or.inr (Or.inl rfl)) 9 15 rfl (by decide) true false

/-- C2: for a supported width `w` and a pin not above `maxPin w`, the mask the
constructor computes as `1 << pin` truncated to the width equals `2 ^ pin`: bit `i` of the
mask is set exactly when `i = pin`, so exactly one bit is set, the one at position
`pin`. -/
theorem PinOutput_mask_single_bit (w : WidthType) (hw : w.supported) (pin top : Pin)
    (htop : maxPin w = .ok top) (hp : pin ≤ top) (negated : Bool) :
    shiftOne w pin = .ok (2 ^ pin.val) ∧
    ∃ po, PinOutput.new w pin negated = .ok po ∧ po.m_mask = 2 ^ pin.val ∧
      po.m_mask < 2 ^ w.bits ∧
      ∀ i : Nat, po.m_mask.testBit i = decide (i = pin.val) := by
  refine ⟨shiftOne_eq hw htop hp, _, new_eq hw htop hp negated, rfl, ?_, ?_⟩
  · exact Nat.pow_lt_pow_right (by decide) (supported_bits hw htop hp).1
  · intro i
    simp only [Nat.testBit_two_pow]
    by_cases h : i = pin.val
    · simp [h]
    · have h2 : ¬ pin.val = i := fun e => h e.symm
      simp [h, h2]

theorem PinOutput_mask_single_bit_witness :
    shiftOne uint64_t 63 = .ok (2 ^ (63 : Pin).val) ∧
    ∃ po, PinOutput.new uint64_t 63 false = .ok po ∧ po.m_mask = 2 ^ (63 : Pin).val ∧
      po.m_mask < 2 ^ uint64_t.bits ∧
      ∀ i : Nat, po.m_mask.testBit i = decide (i = (63 : Pin).val) :=
  PinOutput_mask_single_bit uint64_t (Or.inr (Or.inr (Or.inr rfl))) 63 63 rfl (by decide) false

/-- C3: `maxPin` returns pin 7 for a width type of 1 byte, pin 15 for 2 bytes, pin 31
for 4 bytes and pin 63 for 8 bytes, whatever the other traits of the type; in each case
the pin's number is the number of bits of the type minus one. -/
theorem maxPin_supported_widths (isUnsigned isBool : Bool) :
    maxPin ⟨isUnsigned, isBool, 1⟩ = .ok 7 ∧
    maxPin ⟨isUnsigned, isBool, 2⟩ = .ok 15 ∧
    maxPin ⟨isUnsigned, isBool, 4⟩ = .ok 31 ∧
    maxPin ⟨isUnsigned, isBool, 8⟩ = .ok 63 ∧
    toInt 7 = (WidthType.bits ⟨isUnsigned, isBool, 1⟩ : Int) - 1 ∧
    toInt 15 = (WidthType.bits ⟨isUnsigned, isBool, 2⟩ : Int) - 1 ∧
    toInt 31 = (WidthType.bits ⟨isUnsigned, isBool, 4⟩ : Int) - 1 ∧
    toInt 63 = (WidthType.bits ⟨isUnsigned, isBool, 8⟩ : Int) - 1 := by
  exact ⟨rfl, rfl, rfl, rfl, rfl, rfl, rfl, rfl⟩

end gpio

end hal

namespace hal

namespace time

theorem setTime_of_invalid {σ : Type} (P : Platform) (D : IRtcDriver σ) (self : IRtc σ)
    (tm tm1 : Tm) (h : isValidTime P tm = .ok (false, tm1)) :
    IRtc.setTime P D self tm = .ok (.hal .eInvalidArgument, self) := by
  simp only [IRtc.setTime, h]

theorem setTime_of_valid {σ : Type} (P : Platform) (D : IRtcDriver σ) (self : IRtc σ)
    (tm tm1 : Tm) (h : isValidTime P tm = .ok (true, tm1)) :
    IRtc.setTime P D self tm
      = .ok ((D.drvSetTime self.drv tm1).1,
          { m_initialized := !(D.drvSetTime self.drv tm1).1.toBool,
            drv := (D.drvSetTime self.drv tm1).2 }) := by
  simp only [IRtc.setTime, h]

/-- C4: when the candidate fails validation, `setTime` returns `eInvalidArgument` and
the object is exactly as before: `m_initialized` keeps its prior value and the driver
state is untouched, for every driver. In particular a driver that records its
`drvSetTime` calls has recorded none. -/
theorem setTime_invalid_rejected {σ : Type} (P : Platform) (D : IRtcDriver σ)
    (self : IRtc σ) (tm tm1 : Tm) (h : isValidTime P tm = .ok (false, tm1)) :
    IRtc.setTime P D self tm = .ok (.hal .eInvalidArgument, self) ∧
    ∀ (reading : Result Tm) (answer : Tm → error_code) (b : Bool) (log : List Tm),
      IRtc.setTime P (recordingDriver reading answer) ⟨b, log⟩ tm
        = .ok (.hal .eInvalidArgument, ⟨b, log⟩) :=
  ⟨setTime_of_invalid P D self tm tm1 h,
   fun reading answer _ _ => setTime_of_invalid P (recordingDriver reading answer) _ tm tm1 h⟩

theorem setTime_invalid_rejected_witness :
    IRtc.setTime utcPlatform (recordingDriver ⟨none, error_code.ok⟩ (answerAlways error_code.ok))
        ⟨true, []⟩ (mkTm 2023 2 30 12 30 45 0 0 0)
      = .ok (.hal .eInvalidArgument, ⟨true, []⟩) ∧
    ∀ (reading : Result Tm) (answer : Tm → error_code) (b : Bool) (log : List Tm),
      IRtc.setTime utcPlatform (recordingDriver reading answer) ⟨b, log⟩
          (mkTm 2023 2 30 12 30 45 0 0 0)
        = .ok (.hal .eInvalidArgument, ⟨b, log⟩) :=
  setTime_invalid_rejected utcPlatform _ _ (mkTm 2023 2 30 12 30 45 0 0 0)
    (mkTm 2023 2 30 12 30 45 4 60 0) (by decide)

/-- C5 as stated fails: on an initialised clock (`m_initialized = true`) a valid candidate
whose `drvSetTime` call fails with `eTimeout` makes `setTime` return `eTimeout` and leaves
`m_initialized = false`, not the prior value `true`. -/
theorem setTime_backend_failure_counterexample :
    IRtc.setTime utcPlatform
        (recordingDriver ⟨none, error_code.ok⟩ (answerAlways (.hal .eTimeout)))
        ⟨true, []⟩ (mkTm 2023 6 15 12 30 45 0 0 0)
      = .ok (.hal .eTimeout, ⟨false, [mkTm 2023 6 15 12 30 45 4 165 0]⟩) := by
  decide

/-- C5, amended: when the candidate passes validation and the driver's `drvSetTime` fails
with the error `e`, `setTime` returns exactly `e`, and `m_initialized` is `false`
afterwards whatever its prior value was (so it keeps its prior value only when that was
`false`). -/
theorem setTime_backend_failure {σ : Type} (P : Platform) (D : IRtcDriver σ)
    (self : IRtc σ) (tm tm1 : Tm) (e : error_code) (s1 : σ)
    (hvalid : isValidTime P tm = .ok (true, tm1))
    (hdrv : D.drvSetTime self.drv tm1 = (e, s1)) (hfail : e.toBool = true) :
    IRtc.setTime P D self tm = .ok (e, ⟨false, s1⟩) := by
  rw [setTime_of_valid P D self tm tm1 hvalid, hdrv]
  simp [hfail]

theorem setTime_backend_failure_witness :
    IRtc.setTime utcPlatform
        (recordingDriver ⟨none, error_code.ok⟩ (answerAlways (.foreign 1 5)))
        ⟨false, []⟩ (mkTm 2024 2 29 0 0 0 0 0 0)
      = .ok (.foreign 1 5, ⟨false, [mkTm 2024 2 29 0 0 0 4 59 0]⟩) :=
  setTime_backend_failure utcPlatform _ ⟨false, []⟩ (mkTm 2024 2 29 0 0 0 0 0 0)
    (mkTm 2024 2 29 0 0 0 4 59 0) (.foreign 1 5) [mkTm 2024 2 29 0 0 0 4 59 0]
    (by decide) rfl rfl

/-- C6: when the candidate passes validation and the driver's `drvSetTime` succeeds (its
code `e` converts to `false`), `setTime` returns that success code and `m_initialized` is
`true` afterwards, whatever its prior value was. -/
theorem setTime_backend_success {σ : Type} (P : Platform) (D : IRtcDriver σ)
    (self : IRtc σ) (tm tm1 : Tm) (e : error_code) (s1 : σ)
    (hvalid : isValidTime P tm = .ok (true, tm1))
    (hdrv : D.drvSetTime self.drv tm1 = (e, s1)) (hok : e.toBool = false) :
    IRtc.setTime P D self tm = .ok (e, ⟨true, s1⟩) := by
  rw [setTime_of_valid P D self tm tm1 hvalid, hdrv]
  simp [hok]

theorem setTime_backend_success_witness :
    IRtc.setTime utcPlatform
        (recordingDriver ⟨none, error_code.ok⟩ (answerAlways error_code.ok))
        ⟨false, []⟩ (mkTm 2023 6 15 12 30 45 0 0 0)
      = .ok (error_code.ok, ⟨true, [mkTm 2023 6 15 12 30 45 4 165 0]⟩) :=
  setTime_backend_success utcPlatform _ ⟨false, []⟩ (mkTm 2023 6 15 12 30 45 0 0 0)
    (mkTm 2023 6 15 12 30 45 4 165 0) error_code.ok [mkTm 2023 6 15 12 30 45 4 165 0]
    (by decide) rfl rfl

theorem isValidTime_true_inv (P : Platform) (r t : Tm)
    (h : isValidTime P r = .ok (true, t)) :
    P.mktime r ≠ -1 ∧ ∃ conv, P.gmtime_r (P.mktime r) = some conv ∧
      t = { r with tm_wday := conv.tm_wday, tm_yday := conv.tm_yday,
                   tm_isdst := conv.tm_isdst } ∧
      isSame t conv = true := by
  unfold isValidTime at h
  by_cases hm : P.mktime r = -1
  · simp [hm] at h
  · refine ⟨hm, ?_⟩
    simp only [hm, if_false] at h
    cases hg : P.gmtime_r (P.mktime r) with
    | none => simp [hg] at h
    | some conv =>
      simp only [hg, Except.ok.injEq, Prod.mk.injEq] at h
      exact ⟨conv, rfl, h.2.symm, by rw [← h.2]; exact h.1⟩

theorem isValidTime_revalidate (P : Platform)
    (hP : ∀ a b : Tm, samePrimary a b → P.mktime a = P.mktime b) (r t : Tm)
    (h : isValidTime P r = .ok (true, t)) : isValidTime P t = .ok (true, t) := by
  obtain ⟨hm, conv, hg, ht, hs⟩ := isValidTime_true_inv P r t h
  have hprim : samePrimary t r := by
    rw [ht]; exact ⟨rfl, rfl, rfl, rfl, rfl, rfl⟩
  have hmk : P.mktime t = P.mktime r := hP t r hprim
  have hfix : ({ t with tm_wday := conv.tm_wday, tm_yday := conv.tm_yday,
                        tm_isdst := conv.tm_isdst } : Tm) = t := by
    rw [ht]
  unfold isValidTime
  simp only [hmk, hm, if_false, hg, hfix, hs]

theorem getTime_some_inv {σ : Type} (P : Platform) (D : IRtcDriver σ) (self : IRtc σ)
    (t : Tm) (e : error_code) (out : IRtc σ)
    (h : IRtc.getTime P D self = .ok (⟨some t, e⟩, out)) :
    ∃ r, (D.drvGetTime self.drv).1.value = some r ∧
      (D.drvGetTime self.drv).1.error.toBool = false ∧
      isValidTime P r = .ok (true, t) := by
  unfold IRtc.getTime at h
  cases he : (D.drvGetTime self.drv).1.error.toBool with
  | true => simp [he] at h
  | false =>
    simp only [he] at h
    cases hv : (D.drvGetTime self.drv).1.value with
    | none => simp [hv] at h
    | some r =>
      refine ⟨r, rfl, rfl, ?_⟩
      simp only [hv] at h
      cases hr : isValidTime P r with
      | error a => simp [hr] at h
      | ok x =>
        obtain ⟨flag, t1⟩ := x
        cases flag with
        | false => simp [hr] at h
        | true =>
          simp only [hr, Bool.false_eq_true, if_false, Except.ok.injEq, Prod.mk.injEq,
            Result.mk.injEq, Option.some.injEq] at h
          rw [h.1.1]

/-- C7: when the driver returns a reading successfully and that reading fails validation,
`getTime` returns `eHardwareError` and no calendar time. Conversely, whenever `getTime`
returns a calendar time `t`, the driver had returned a reading `r` that passed
validation, `t` being `r` as validation left it; and on a platform whose `mktime` reads
only the six primary fields, `t` itself passes validation again unchanged. -/
theorem getTime_rejects_invalid_reading {σ : Type} (P : Platform) (D : IRtcDriver σ)
    (self : IRtc σ) :
    (∀ (r bad : Tm) (e : error_code),
      (D.drvGetTime self.drv).1 = ⟨some r, e⟩ → e.toBool = false →
      isValidTime P r = .ok (false, bad) →
      IRtc.getTime P D self
        = .ok (⟨none, .hal .eHardwareError⟩, { self with drv := (D.drvGetTime self.drv).2 })) ∧
    (∀ (t : Tm) (e : error_code) (out : IRtc σ),
      IRtc.getTime P D self = .ok (⟨some t, e⟩, out) →
      ∃ r, (D.drvGetTime self.drv).1.value = some r ∧
        isValidTime P r = .ok (true, t) ∧
        ((∀ a b : Tm, samePrimary a b → P.mktime a = P.mktime b) →
          isValidTime P t = .ok (true, t))) := by
  constructor
  · intro r bad e hread hok hbad
    simp only [IRtc.getTime, hread, hok, hbad]
    simp
  · intro t e out h
    obtain ⟨r, hv, _, hr⟩ := getTime_some_inv P D self t e out h
    exact ⟨r, hv, hr, fun hP => isValidTime_revalidate P hP r t hr⟩

theorem mktimeUTC_reads_primary_isdst (a b : Tm) (h : samePrimary a b)
    (hd : a.tm_isdst = b.tm_isdst) : utcPlatform.mktime a = utcPlatform.mktime b := by
  obtain ⟨h1, h2, h3, h4, h5, h6⟩ := h
  simp only [utcPlatform, mktimeUTC, mktimeSecs, tmToSecs, h1, h2, h3, h4, h5, h6, hd]

theorem getTime_rejects_invalid_reading_witness :
    IRtc.getTime utcPlatform
        (recordingDriver ⟨some (mkTm 2023 4 31 8 0 0 0 0 0), error_code.ok⟩
          (answerAlways error_code.ok)) ⟨true, []⟩
      = .ok (⟨none, .hal .eHardwareError⟩, ⟨true, []⟩) ∧
    ∃ r, (Result.mk (some (mkTm 2024 2 29 8 0 0 0 0 0)) error_code.ok).value = some r ∧
      isValidTime utcPlatform r = .ok (true, mkTm 2024 2 29 8 0 0 4 59 0) ∧
      isValidTime utcPlatform (mkTm 2024 2 29 8 0 0 4 59 0)
        = .ok (true, mkTm 2024 2 29 8 0 0 4 59 0) :=
  ⟨(getTime_rejects_invalid_reading utcPlatform
      (recordingDriver ⟨some (mkTm 2023 4 31 8 0 0 0 0 0), error_code.ok⟩
        (answerAlways error_code.ok)) ⟨true, []⟩).1
      (mkTm 2023 4 31 8 0 0 0 0 0) (mkTm 2023 4 31 8 0 0 1 120 0) error_code.ok
      rfl rfl (by decide),
   by
    obtain ⟨r, hv, hr, _⟩ := (getTime_rejects_invalid_reading utcPlatform
      (recordingDriver ⟨some (mkTm 2024 2 29 8 0 0 0 0 0), error_code.ok⟩
        (answerAlways error_code.ok)) ⟨false, []⟩).2
      (mkTm 2024 2 29 8 0 0 4 59 0) error_code.ok ⟨false, []⟩ (by decide)
    exact ⟨r, hv, hr, by decide⟩⟩

/-- C8 as stated fails: when the driver's `drvGetTime` fails with `eTimeout`, `getTime`
fails with `eTimeout`, not with `eHardwareError`. -/
theorem getTime_backend_failure_counterexample :
    IRtc.getTime utcPlatform
        (recordingDriver ⟨none, .hal .eTimeout⟩ (answerAlways error_code.ok)) ⟨true, []⟩
      = .ok (⟨none, .hal .eTimeout⟩, ⟨true, []⟩) ∧
    error_code.hal .eTimeout ≠ error_code.hal .eHardwareError := by
  decide

/-- C8, amended: when the driver's `drvGetTime` fails, with whatever error code `e` (and
whatever value it carries along), `getTime` fails with that same code `e` and returns no
calendar time; the code is `eHardwareError` only when the driver reported it. -/
theorem getTime_backend_failure {σ : Type} (P : Platform) (D : IRtcDriver σ)
    (self : IRtc σ) (hfail : (D.drvGetTime self.drv).1.error.toBool = true) :
    IRtc.getTime P D self
      = .ok (⟨none, (D.drvGetTime self.drv).1.error⟩,
          { self with drv := (D.drvGetTime self.drv).2 }) := by
  simp only [IRtc.getTime, hfail, if_true]

theorem getTime_backend_failure_witness :
    IRtc.getTime utcPlatform
        (recordingDriver ⟨some (mkTm 2023 6 15 12 30 45 0 0 0), .foreign 2 (-7)⟩
          (answerAlways error_code.ok)) ⟨false, []⟩
      = .ok (⟨none, .foreign 2 (-7)⟩, ⟨false, []⟩) :=
  getTime_backend_failure utcPlatform
    (recordingDriver ⟨some (mkTm 2023 6 15 12 30 45 0 0 0), .foreign 2 (-7)⟩
      (answerAlways error_code.ok)) ⟨false, []⟩ rfl

/-! ### The calendar conversions of the UTC platform -/

theorem eraDecomposition (eraday c r1 q r2 k yd : Int) (h0 : 0 ≤ eraday)
    (h1 : eraday ≤ 146096)
    (hc : c = min (eraday / 36524) 3) (hr1 : r1 = eraday - 36524 * c)
    (hq : q = min (r1 / 1461) 24) (hr2 : r2 = r1 - 1461 * q)
    (hk : k = min (r2 / 365) 3) (hyd : yd = r2 - 365 * k) :
    0 ≤ c ∧ c ≤ 3 ∧ 0 ≤ q ∧ q ≤ 24 ∧ 0 ≤ k ∧ k ≤ 3 ∧ 0 ≤ yd ∧ yd ≤ 365 ∧
    (yd = 365 → k = 3 ∧ (q < 24 ∨ c = 3)) ∧
    eraday = 36524 * c + 1461 * q + 365 * k + yd := by
  omega

theorem monthDay_real (c q k yd era mp day month year : Int)
    (hq0 : 0 ≤ q) (hq24 : q ≤ 24) (hk0 : 0 ≤ k) (hk3 : k ≤ 3)
    (hyd0 : 0 ≤ yd) (hyd1 : yd ≤ 365) (hleap : yd = 365 → k = 3 ∧ (q < 24 ∨ c = 3))
    (hmp : mp = (5 * yd + 2) / 153) (hday : day = yd - (153 * mp + 2) / 5 + 1)
    (hmonth : month = if mp < 10 then mp + 2 else mp - 10)
    (hyear : year = 100 * c + 4 * q + k + 400 * era + (if month ≤ 1 then 1 else 0)) :
    (0 ≤ month ∧ month ≤ 11) ∧ (1 ≤ day ∧ day ≤ daysInMonth year month) := by
  have hmp0 : 0 ≤ mp ∧ mp ≤ 11 := by omega
  simp only [daysInMonth, isLeapYear]
  omega

theorem secsToTm_real (t : Int) : isRealDateTime (secsToTm t) := by
  have hd0 := Int.emod_nonneg (t / 86400 + 719468) (show (146097 : Int) ≠ 0 by decide)
  have hd1 := Int.emod_lt_of_pos (t / 86400 + 719468) (show (0 : Int) < 146097 by decide)
  obtain ⟨_, _, hq0, hq24, hk0, hk3, hyd0, hyd1, hleap, _⟩ :=
    eraDecomposition _ _ _ _ _ _ _ hd0 (by omega) rfl rfl rfl rfl rfl rfl
  have hmd := monthDay_real _ _ _ _ ((t / 86400 + 719468) / 146097) _ _ _ _
    hq0 hq24 hk0 hk3 hyd0 hyd1 hleap rfl rfl rfl rfl
  refine ⟨hmd.1, ?_, ?_, ?_, ?_⟩
  · simpa [secsToTm] using hmd.2
  · simp only [secsToTm]; omega
  · simp only [secsToTm]; omega
  · simp only [secsToTm]; omega

theorem isSame_samePrimary (a b : Tm) (h : isSame a b = true) : samePrimary a b := by
  simp only [isSame, Bool.and_eq_true, beq_iff_eq] at h
  obtain ⟨⟨⟨⟨h1, h2⟩, h3⟩, ⟨h4, h5⟩, h6⟩, _⟩ := h
  exact ⟨h3, h2, h1, h4, h5, h6⟩

theorem isRealDateTime_of_samePrimary (a b : Tm) (h : samePrimary a b)
    (hb : isRealDateTime b) : isRealDateTime a := by
  obtain ⟨h1, h2, h3, h4, h5, h6⟩ := h
  unfold isRealDateTime at hb ⊢
  rw [h1, h2, h3, h4, h5, h6]
  exact hb

theorem mktimeUTC_cases (tm : Tm) :
    mktimeUTC tm = -1 ∨
      (mktimeUTC tm = mktimeSecs tm ∧
        gmtimeUTC (mktimeSecs tm) = some (secsToTm (mktimeSecs tm))) := by
  unfold mktimeUTC
  by_cases h : TIME_MIN ≤ mktimeSecs tm ∧ mktimeSecs tm ≤ TIME_MAX ∧
      (gmtimeUTC (mktimeSecs tm)).isSome = true
  · right
    refine ⟨by simp only [h, and_self, if_true], ?_⟩
    have h3 := h.2.2
    unfold gmtimeUTC at h3 ⊢
    by_cases hy : INT_MIN ≤ (secsToTm (mktimeSecs tm)).tm_year ∧
        (secsToTm (mktimeSecs tm)).tm_year ≤ INT_MAX
    · simp only [hy, and_self, if_true]
    · simp [hy] at h3
  · left
    simp only [h, if_false]

theorem isValidTime_utc_of_secs (tm : Tm) (hm : mktimeUTC tm = mktimeSecs tm)
    (hg : gmtimeUTC (mktimeSecs tm) = some (secsToTm (mktimeSecs tm)))
    (hneg : mktimeSecs tm ≠ -1) :
    isValidTime utcPlatform tm
      = .ok (isSame (withDerivedOf tm (secsToTm (mktimeSecs tm))) (secsToTm (mktimeSecs tm)),
          withDerivedOf tm (secsToTm (mktimeSecs tm))) := by
  simp only [isValidTime, utcPlatform, hm, hneg, if_false, hg, withDerivedOf]

/-- C9: on the UTC platform, `isValidTime` returns `false` for every candidate whose six
primary fields do not denote a real Gregorian date and time of day: a month outside
`0..11`, a day of month outside `1..daysInMonth` under the leap-year rule, or an hour,
minute or second outside its range. The call returns (no assertion fails). -/
theorem isValidTime_rejects_unreal (tm : Tm) (h : ¬ isRealDateTime tm) :
    ∃ tm1, isValidTime utcPlatform tm = .ok (false, tm1) := by
  rcases mktimeUTC_cases tm with hm | ⟨hm, hg⟩
  · exact ⟨tm, by simp [isValidTime, utcPlatform, hm]⟩
  · by_cases hneg : mktimeSecs tm = -1
    · exact ⟨tm, by simp [isValidTime, utcPlatform, hm, hneg]⟩
    · refine ⟨withDerivedOf tm (secsToTm (mktimeSecs tm)), ?_⟩
      rw [isValidTime_utc_of_secs tm hm hg hneg]
      cases hs : isSame (withDerivedOf tm (secsToTm (mktimeSecs tm)))
          (secsToTm (mktimeSecs tm)) with
      | false => rfl
      | true =>
        exfalso
        apply h
        have hp := isSame_samePrimary _ _ hs
        have hreal := isRealDateTime_of_samePrimary _ _ hp (secsToTm_real (mktimeSecs tm))
        exact isRealDateTime_of_samePrimary tm _ ⟨rfl, rfl, rfl, rfl, rfl, rfl⟩ hreal

theorem isValidTime_rejects_unreal_witness :
    ¬ isRealDateTime (mkTm 2023 2 29 12 30 45 0 0 0) ∧
    ∃ tm1, isValidTime utcPlatform (mkTm 2023 2 29 12 30 45 0 0 0) = .ok (false, tm1) :=
  ⟨by decide, isValidTime_rejects_unreal (mkTm 2023 2 29 12 30 45 0 0 0) (by decide)⟩

/-- C10 fails on the code at one instant: 1969-12-31 23:59:59 is a real Gregorian date
and time of day whose year fits `tm_year` and whose time-point, `-1`, fits
`std::time_t`; `mktime` returns that time-point, `isValidTime` takes it for the error
value of `mktime` and returns `false`, although the round trip of `-1` gives the
candidate's own primary fields back. -/
theorem isValidTime_rejects_second_before_epoch :
    isRealDateTime (mkTm 1969 12 31 23 59 59 3 364 0) ∧
    (INT_MIN ≤ (mkTm 1969 12 31 23 59 59 3 364 0).tm_year ∧
      (mkTm 1969 12 31 23 59 59 3 364 0).tm_year ≤ INT_MAX) ∧
    (TIME_MIN ≤ tmToSecs (mkTm 1969 12 31 23 59 59 3 364 0) ∧
      tmToSecs (mkTm 1969 12 31 23 59 59 3 364 0) ≤ TIME_MAX) ∧
    utcPlatform.mktime (mkTm 1969 12 31 23 59 59 3 364 0) = -1 ∧
    utcPlatform.gmtime_r (-1) = some (mkTm 1969 12 31 23 59 59 3 364 0) ∧
    isValidTime utcPlatform (mkTm 1969 12 31 23 59 59 3 364 0)
      = .ok (false, mkTm 1969 12 31 23 59 59 3 364 0) := by
  decide

end time

end hal

/-! ### Pin construction, masked ports and derived calendar fields -/

namespace hal

namespace gpio

/-- C12: for every `PinOutput`, every port driver, driver state and boolean value, the
error code `set` returns is exactly the error code of the port's `set` call on the pin's
mask, whether that reports success or failure, and the driver state it leaves is the one
that call leaves: `PinOutput::set` adds no error of its own. -/
theorem PinOutput_set_returns_port_error {σ : Type} (self : PinOutput) (port : IGpioPort σ)
    (s : σ) (value : Bool) :
    (self.set port s value).1
      = (port.set s (if value != self.m_negated then 2 ^ self.width.bits - 1 else 0)
          self.m_mask).1 ∧
    (self.set port s value).2
      = (port.set s (if value != self.m_negated then 2 ^ self.width.bits - 1 else 0)
          self.m_mask).2 := by
  rw [set_eq]
  exact ⟨rfl, rfl⟩

theorem maskedWrite_testBit (w : WidthType) (p : Nat) (negated v : Bool) (old i : Nat)
    (hp : p < w.bits) (hold : old < 2 ^ w.bits) :
    ((PinOutput.set ⟨w, 2 ^ p, negated⟩ (maskedWritePort w) old v).2).testBit i
      = if i = p then (v != negated) else old.testBit i := by
  rw [set_eq]
  simp only [maskedWritePort, Nat.testBit_or, Nat.testBit_and, Nat.testBit_xor,
    Nat.testBit_two_pow_sub_one, Nat.testBit_two_pow]
  by_cases hi : i = p
  · subst hi
    cases hvn : (v != negated) <;> simp [hvn, hp]
  · have hpi : ¬ p = i := fun e => hi e.symm
    by_cases hlt : i < w.bits
    · simp [hi, hpi, hlt]
    · have hfalse : old.testBit i = false :=
        Nat.testBit_lt_two_pow (lt_of_lt_of_le hold
          (Nat.pow_le_pow_right (by decide) (Nat.le_of_not_lt hlt)))
      simp [hi, hpi, hfalse]

theorem maskedWrite_lt (w : WidthType) (p : Nat) (negated v : Bool) (old : Nat)
    (hp : p < w.bits) (hold : old < 2 ^ w.bits) :
    (PinOutput.set ⟨w, 2 ^ p, negated⟩ (maskedWritePort w) old v).2 < 2 ^ w.bits := by
  apply Nat.lt_pow_two_of_testBit
  intro i hi
  rw [maskedWrite_testBit w p negated v old i hp hold]
  have hne : i ≠ p := by omega
  simp only [hne, if_false]
  exact Nat.testBit_lt_two_pow (lt_of_lt_of_le hold (Nat.pow_le_pow_right (by decide) hi))

/-- C14: on a port backend that implements `set(value, mask)` as
`new = (old AND NOT mask) OR (value AND mask)`, for a supported width `w`, a pin not above
`maxPin w`, any `negated` flag, any boolean `v` and any initial port value of that width,
`PinOutput::set(v)` succeeds, leaves bit `pin` of the port equal to `v XOR negated`, leaves
every other bit equal to its initial value, and keeps the port value within the width. -/
theorem PinOutput_set_masked_port (w : WidthType) (hw : w.supported) (pin top : Pin)
    (htop : maxPin w = .ok top) (hp : pin ≤ top) (negated v : Bool) (old : Nat)
    (hold : old < 2 ^ w.bits) :
    ∃ po, PinOutput.new w pin negated = .ok po ∧
      (po.set (maskedWritePort w) old v).1 = error_code.ok ∧
      ((po.set (maskedWritePort w) old v).2).testBit pin.val = xor v negated ∧
      (∀ i : Nat, i ≠ pin.val →
        ((po.set (maskedWritePort w) old v).2).testBit i = old.testBit i) ∧
      (po.set (maskedWritePort w) old v).2 < 2 ^ w.bits := by
  have hb := (supported_bits hw htop hp).1
  refine ⟨_, new_eq hw htop hp negated, ?_, ?_, ?_, maskedWrite_lt w _ negated v old hb hold⟩
  · rw [set_eq]; rfl
  · rw [maskedWrite_testBit w _ negated v old _ hb hold]
    cases v <;> cases negated <;> simp
  · intro i hi
    rw [maskedWrite_testBit w _ negated v old _ hb hold]
    simp only [hi, if_false]

theorem PinOutput_set_masked_port_witness :
    ∃ po, PinOutput.new uint8_t 2 true = .ok po ∧
      (po.set (maskedWritePort uint8_t) 165 false).1 = error_code.ok ∧
      ((po.set (maskedWritePort uint8_t) 165 false).2).testBit (2 : Pin).val
        = xor false true ∧
      (∀ i : Nat, i ≠ (2 : Pin).val →
        ((po.set (maskedWritePort uint8_t) 165 false).2).testBit i = (165).testBit i) ∧
      (po.set (maskedWritePort uint8_t) 165 false).2 < 2 ^ uint8_t.bits :=
  PinOutput_set_masked_port uint8_t (Or.inl rfl) 2 7 rfl (by decide) true false 165
    (by decide)

/-- C19: on a port backend that implements `set(value, mask)` as
`new = (old AND NOT mask) OR (value AND mask)`, two `PinOutput`s of the same supported
width on different pins `p` and `q`, both not above `maxPin`, commute: `set(a)` on the
first followed by `set(b)` on the second leaves the same port value as the opposite order.
In that value bit `p` is `a XOR` the first pin's `negated` flag, bit `q` is `b XOR` the
second pin's, and every other bit is the initial one. -/
theorem PinOutput_sets_commute (w : WidthType) (hw : w.supported) (p q top : Pin)
    (htop : maxPin w = .ok top) (hp : p ≤ top) (hq : q ≤ top) (hpq : p ≠ q)
    (n1 n2 a b : Bool) (old : Nat) (hold : old < 2 ^ w.bits) :
    ∃ po1 po2, PinOutput.new w p n1 = .ok po1 ∧ PinOutput.new w q n2 = .ok po2 ∧
      (po2.set (maskedWritePort w) (po1.set (maskedWritePort w) old a).2 b).2
        = (po1.set (maskedWritePort w) (po2.set (maskedWritePort w) old b).2 a).2 ∧
      ((po2.set (maskedWritePort w) (po1.set (maskedWritePort w) old a).2 b).2).testBit p.val
        = xor a n1 ∧
      ((po2.set (maskedWritePort w) (po1.set (maskedWritePort w) old a).2 b).2).testBit q.val
        = xor b n2 ∧
      ∀ i : Nat, i ≠ p.val → i ≠ q.val →
        ((po2.set (maskedWritePort w) (po1.set (maskedWritePort w) old a).2 b).2).testBit i
          = old.testBit i := by
  have hbp := (supported_bits hw htop hp).1
  have hbq := (supported_bits hw htop hq).1
  have hne : p.val ≠ q.val := fun e => hpq (Fin.ext e)
  have l1 := maskedWrite_lt w p.val n1 a old hbp hold
  have l2 := maskedWrite_lt w q.val n2 b old hbq hold
  have bits12 : ∀ i : Nat,
      ((PinOutput.set ⟨w, 2 ^ q.val, n2⟩ (maskedWritePort w)
          (PinOutput.set ⟨w, 2 ^ p.val, n1⟩ (maskedWritePort w) old a).2 b).2).testBit i
        = if i = q.val then (b != n2) else if i = p.val then (a != n1) else old.testBit i := by
    intro i
    rw [maskedWrite_testBit w q.val n2 b _ i hbq l1, maskedWrite_testBit w p.val n1 a old i hbp hold]
  have bits21 : ∀ i : Nat,
      ((PinOutput.set ⟨w, 2 ^ p.val, n1⟩ (maskedWritePort w)
          (PinOutput.set ⟨w, 2 ^ q.val, n2⟩ (maskedWritePort w) old b).2 a).2).testBit i
        = if i = p.val then (a != n1) else if i = q.val then (b != n2) else old.testBit i := by
    intro i
    rw [maskedWrite_testBit w p.val n1 a _ i hbp l2, maskedWrite_testBit w q.val n2 b old i hbq hold]
  refine ⟨_, _, new_eq hw htop hp n1, new_eq hw htop hq n2, ?_, ?_, ?_, ?_⟩
  · apply Nat.eq_of_testBit_eq
    intro i
    rw [bits12 i, bits21 i]
    by_cases h1 : i = p.val
    · have h2 : ¬ i = q.val := fun e => hne (h1.symm.trans e)
      simp only [h1, h2, if_true, if_false]
      simp [hne]
    · simp only [h1, if_false]
  · rw [bits12 p.val]
    cases a <;> cases n1 <;> simp [hne]
  · rw [bits12 q.val]
    cases b <;> cases n2 <;> simp
  · intro i hi1 hi2
    rw [bits12 i]
    simp only [hi1, hi2, if_false]

theorem PinOutput_sets_commute_witness :
    ∃ po1 po2, PinOutput.new uint16_t 3 false = .ok po1 ∧
      PinOutput.new uint16_t 12 true = .ok po2 ∧
      (po2.set (maskedWritePort uint16_t) (po1.set (maskedWritePort uint16_t) 43690 true).2
          true).2
        = (po1.set (maskedWritePort uint16_t) (po2.set (maskedWritePort uint16_t) 43690 true).2
            true).2 ∧
      ((po2.set (maskedWritePort uint16_t) (po1.set (maskedWritePort uint16_t) 43690 true).2
          true).2).testBit (3 : Pin).val = xor true false ∧
      ((po2.set (maskedWritePort uint16_t) (po1.set (maskedWritePort uint16_t) 43690 true).2
          true).2).testBit (12 : Pin).val = xor true true ∧
      ∀ i : Nat, i ≠ (3 : Pin).val → i ≠ (12 : Pin).val →
        ((po2.set (maskedWritePort uint16_t)
            (po1.set (maskedWritePort uint16_t) 43690 true).2 true).2).testBit i
          = (43690).testBit i :=
  PinOutput_sets_commute uint16_t (Or.inr (Or.inl rfl)) 3 12 15 rfl (by decide) (by decide)
    (by decide) false true true true 43690 (by decide)

/-- C15: the alias `PinMask<WidthType>` is one bit short of the width. For each of the
four supported widths its `std::bitset` has `maxPin` bits, that is 7, 15, 31 and 63 bits
for the widths of 8, 16, 32 and 64 bits, so its positions end at `maxPin - 1` and the pin
`maxPin` itself has no position in it. -/
theorem PinMask_one_bit_short :
    (PinMaskBits uint8_t = .ok 7 ∧ uint8_t.bits = 8 ∧ maxPin uint8_t = .ok 7 ∧
      ¬ (7 : Pin).val < 7) ∧
    (PinMaskBits uint16_t = .ok 15 ∧ uint16_t.bits = 16 ∧ maxPin uint16_t = .ok 15 ∧
      ¬ (15 : Pin).val < 15) ∧
    (PinMaskBits uint32_t = .ok 31 ∧ uint32_t.bits = 32 ∧ maxPin uint32_t = .ok 31 ∧
      ¬ (31 : Pin).val < 31) ∧
    (PinMaskBits uint64_t = .ok 63 ∧ uint64_t.bits = 64 ∧ maxPin uint64_t = .ok 63 ∧
      ¬ (63 : Pin).val < 63) := by
  decide

theorem maxPin_total_on_supported (w : WidthType) (hs : w.supported) :
    ∃ p, maxPin w = .ok p ∧ p.val + 1 = w.bits := by
  obtain ⟨u, b, sz⟩ := w
  simp only [WidthType.supported] at hs
  rcases hs with h | h | h | h <;> subst h
  · exact ⟨7, rfl, rfl⟩
  · exact ⟨15, rfl, rfl⟩
  · exact ⟨31, rfl, rfl⟩
  · exact ⟨63, rfl, rfl⟩

theorem valid_traits_supported (t : Target) (T : ArithmeticType)
    (hvalid : cIsValidWidthType (T.traits t) = true) : (T.traits t).supported := by
  obtain ⟨c, wc, l, ws⟩ := t
  cases T <;> cases c <;> cases wc <;> cases l <;> cases ws <;>
    first
    | exact absurd hvalid (by decide)
    | exact Or.inl rfl
    | exact Or.inr (Or.inl rfl)
    | exact Or.inr (Or.inr (Or.inl rfl))
    | exact Or.inr (Or.inr (Or.inr rfl))

/-- C16: for every arithmetic type of every target that `cIsValidWidthType` admits
(unsigned, not `bool`, at most 8 bytes), `maxPin` returns a pin, the number of bits of the
type minus one: its default branch, the failing assertion, is not reached. The types the
predicate excludes are the signed and floating-point ones, `bool`, and the 16-byte
`unsigned __int128`. -/
theorem maxPin_total_on_valid (t : Target) (T : ArithmeticType)
    (hvalid : cIsValidWidthType (T.traits t) = true) :
    (∃ p, maxPin (T.traits t) = .ok p ∧ p.val + 1 = (T.traits t).bits) ∧
    maxPin (T.traits t) ≠ .error .assertFailed := by
  obtain ⟨p, hp, hbits⟩ := maxPin_total_on_supported _ (valid_traits_supported t T hvalid)
  refine ⟨⟨p, hp, hbits⟩, ?_⟩
  rw [hp]
  exact fun h => by cases h

theorem maxPin_total_on_valid_witness :
    cIsValidWidthType (ArithmeticType.unsignedLong.traits ⟨false, false, true, true⟩) = true ∧
    (∃ p, maxPin (ArithmeticType.unsignedLong.traits ⟨false, false, true, true⟩) = .ok p ∧
      p.val + 1 = (ArithmeticType.unsignedLong.traits ⟨false, false, true, true⟩).bits) ∧
    maxPin (ArithmeticType.unsignedLong.traits ⟨false, false, true, true⟩)
      ≠ .error .assertFailed :=
  ⟨by decide,
   maxPin_total_on_valid ⟨false, false, true, true⟩ ArithmeticType.unsignedLong (by decide)⟩

end gpio

namespace time

/-- C18: when the candidate `tm` passes validation, leaving the copy `toSet` as `tm1`,
then `tm1` has the six primary fields of `tm` and the weekday, day-of-year and
daylight-saving fields of the round trip `gmtime_r(mktime(tm))`, whatever those three
fields of `tm` were; `setTime` calls `drvSetTime` with `tm1` (a driver that records its
calls has appended exactly `tm1`). On a platform whose `mktime` reads only the six primary
fields and `tm_isdst`, the same `tm1` is handed over whatever weekday and day of year the
candidate carries. The candidate itself is a `const` reference that `setTime` copies
before validating, so it is no part of what `setTime` changes. -/
theorem setTime_hands_round_tripped {σ : Type} (P : Platform) (D : IRtcDriver σ)
    (self : IRtc σ) (tm tm1 : Tm) (hvalid : isValidTime P tm = .ok (true, tm1)) :
    samePrimary tm1 tm ∧
    (∃ conv, P.gmtime_r (P.mktime tm) = some conv ∧ tm1 = withDerivedOf tm conv) ∧
    IRtc.setTime P D self tm
      = .ok ((D.drvSetTime self.drv tm1).1,
          { m_initialized := !(D.drvSetTime self.drv tm1).1.toBool,
            drv := (D.drvSetTime self.drv tm1).2 }) ∧
    (∀ (reading : Result Tm) (answer : Tm → error_code) (b : Bool) (log : List Tm),
      IRtc.setTime P (recordingDriver reading answer) ⟨b, log⟩ tm
        = .ok (answer tm1, ⟨!(answer tm1).toBool, log ++ [tm1]⟩)) ∧
    (∀ wday yday : Int,
      (∀ x y : Tm, samePrimary x y → x.tm_isdst = y.tm_isdst → P.mktime x = P.mktime y) →
      isValidTime P { tm with tm_wday := wday, tm_yday := yday } = .ok (true, tm1)) := by
  obtain ⟨hm, conv, hg, ht, hs⟩ := isValidTime_true_inv P tm tm1 hvalid
  refine ⟨?_, ⟨conv, hg, ht⟩, setTime_of_valid P D self tm tm1 hvalid, ?_, ?_⟩
  · rw [ht]; exact ⟨rfl, rfl, rfl, rfl, rfl, rfl⟩
  · intro reading answer b log
    rw [setTime_of_valid P _ _ tm tm1 hvalid]
    rfl
  · intro wday yday hP
    have hmk : P.mktime { tm with tm_wday := wday, tm_yday := yday } = P.mktime tm :=
      hP _ _ ⟨rfl, rfl, rfl, rfl, rfl, rfl⟩ rfl
    have hs2 : isSame (withDerivedOf tm conv) conv = true := by
      have : withDerivedOf tm conv = tm1 := by rw [ht]; rfl
      rw [this]; exact hs
    have ht2 : withDerivedOf tm conv = tm1 := by rw [ht]; rfl
    simp only [withDerivedOf] at hs2 ht2
    simp only [isValidTime, hmk, hm, if_false, hg, hs2, ht2, hs]

theorem setTime_hands_round_tripped_witness :
    samePrimary (mkTm 2023 6 15 12 30 45 4 165 0) (mkTm 2023 6 15 12 30 45 1 7 (-1)) ∧
    (∃ conv, utcPlatform.gmtime_r (utcPlatform.mktime (mkTm 2023 6 15 12 30 45 1 7 (-1)))
        = some conv ∧
      mkTm 2023 6 15 12 30 45 4 165 0
        = withDerivedOf (mkTm 2023 6 15 12 30 45 1 7 (-1)) conv) ∧
    IRtc.setTime utcPlatform (recordingDriver ⟨none, error_code.ok⟩ (answerAlways error_code.ok))
        ⟨false, []⟩ (mkTm 2023 6 15 12 30 45 1 7 (-1))
      = .ok (((recordingDriver ⟨none, error_code.ok⟩ (answerAlways error_code.ok)).drvSetTime
              [] (mkTm 2023 6 15 12 30 45 4 165 0)).1,
          { m_initialized :=
              !((recordingDriver ⟨none, error_code.ok⟩ (answerAlways error_code.ok)).drvSetTime
                [] (mkTm 2023 6 15 12 30 45 4 165 0)).1.toBool,
            drv := ((recordingDriver ⟨none, error_code.ok⟩
              (answerAlways error_code.ok)).drvSetTime
                [] (mkTm 2023 6 15 12 30 45 4 165 0)).2 }) ∧
    (∀ (reading : Result Tm) (answer : Tm → error_code) (b : Bool) (log : List Tm),
      IRtc.setTime utcPlatform (recordingDriver reading answer) ⟨b, log⟩
          (mkTm 2023 6 15 12 30 45 1 7 (-1))
        = .ok (answer (mkTm 2023 6 15 12 30 45 4 165 0),
            ⟨!(answer (mkTm 2023 6 15 12 30 45 4 165 0)).toBool,
              log ++ [mkTm 2023 6 15 12 30 45 4 165 0]⟩)) ∧
    (∀ wday yday : Int,
      isValidTime utcPlatform (mkTm 2023 6 15 12 30 45 wday yday (-1))
        = .ok (true, mkTm 2023 6 15 12 30 45 4 165 0)) := by
  obtain ⟨h1, h2, h3, h4, h5⟩ := setTime_hands_round_tripped utcPlatform
    (recordingDriver ⟨none, error_code.ok⟩ (answerAlways error_code.ok)) ⟨false, []⟩
    (mkTm 2023 6 15 12 30 45 1 7 (-1)) (mkTm 2023 6 15 12 30 45 4 165 0) (by decide)
  exact ⟨h1, h2, h3, h4, fun wday yday => h5 wday yday mktimeUTC_reads_primary_isdst⟩

end time

end hal
